import Mathlib

set_option maxRecDepth 100000

/-!
Verification of the RefundHunter backend's normalization / eligibility /
validation pipeline.  JavaScript values are shallowly embedded: strings are
Lean strings (processed as character lists), numbers are idealized as exact
decimal rationals (an integer mantissa over a power of ten — every number
this program builds arises from decimal parsing, `+`, `*`, `Math.abs` and
`toFixed`, so this is exact) together with explicit NaN and signed-infinity
markers, and the untyped records flowing through the validators are a
`JSVal` tree.
-/

/-! ## JavaScript string primitives -/

/-- Whitespace as recognised by the JS `trim` / numeric coercions
(ASCII subset; the exotic Unicode space classes are not modelled). -/
def isJsWs (c : Char) : Bool :=
  c == ' ' || c == '\t' || c == '\n' || c == '\r' || c == '\x0b' || c == '\x0c'

/-- Drop trailing JS whitespace from a character list. -/
def rightTrimL : List Char → List Char
  | [] => []
  | c :: rest =>
    let r := rightTrimL rest
    if r.isEmpty && isJsWs c then [] else c :: r

/-- `String.prototype.trim`: drop leading and trailing whitespace. -/
def jsTrimL (l : List Char) : List Char :=
  rightTrimL (l.dropWhile isJsWs)

/-- `String.prototype.trim` on Lean strings. -/
def jsTrim (s : String) : String :=
  ⟨jsTrimL s.data⟩

/-- `String.prototype.split` with a one-character separator. -/
def splitCharAux (sep : Char) : List Char → List Char → List (List Char)
  | [], cur => [cur.reverse]
  | c :: rest, cur =>
    if c == sep then cur.reverse :: splitCharAux sep rest []
    else splitCharAux sep rest (c :: cur)

/-- Split a character list on a separator character (JS `split` semantics:
the result is never empty, and an empty input yields `[[]]`). -/
def splitChar (sep : Char) (l : List Char) : List (List Char) :=
  splitCharAux sep l []

/-- `String.prototype.includes` / regex-alternative containment test:
does `hay` contain `pat` as a contiguous substring? -/
def containsSubL (pat : List Char) : List Char → Bool
  | [] => pat.isEmpty
  | c :: t => pat.isPrefixOf (c :: t) || containsSubL pat t

/-! ## Exact decimal numbers

A finite JS number is modelled as `m / 10 ^ e` with integer mantissa `m`.
The representation is not normalized; all operations are deterministic, so
structural equality is used only between values produced by identical
operation chains. -/

structure DecQ where
  m : ℤ
  e : ℕ
deriving DecidableEq, Repr

/-- Semantic value of a decimal, used for the semantic-level lemmas. -/
def DecQ.toQ (a : DecQ) : ℚ := (a.m : ℚ) / (10 : ℚ) ^ a.e

def DecQ.ofInt (z : ℤ) : DecQ := ⟨z, 0⟩

def DecQ.add (a b : DecQ) : DecQ :=
  ⟨a.m * 10 ^ (max a.e b.e - a.e) + b.m * 10 ^ (max a.e b.e - b.e), max a.e b.e⟩

def DecQ.mul (a b : DecQ) : DecQ := ⟨a.m * b.m, a.e + b.e⟩

def DecQ.abs (a : DecQ) : DecQ := ⟨|a.m|, a.e⟩

/-- Multiply by `10 ^ z` for a signed exponent (used for `e`/`E` suffixes). -/
def DecQ.scale (a : DecQ) (z : ℤ) : DecQ :=
  if z < 0 then ⟨a.m, a.e + z.natAbs⟩ else ⟨a.m * 10 ^ z.natAbs, a.e⟩

/-- The numeric value of `Number(x.toFixed(2))`: round to the nearest
multiple of 1/100, ties going to the larger value (the `toFixed` rule
`n / 10^f - x` closest to zero, larger `n` on ties):
`⌊100·x + 1/2⌋ / 100`. -/
def DecQ.round2 (a : DecQ) : DecQ :=
  ⟨(200 * a.m + 10 ^ a.e).fdiv (2 * 10 ^ a.e), 2⟩

/-- Truncation toward zero, as performed by `parseInt` on a number's
decimal rendering. -/
def DecQ.trunc (a : DecQ) : ℤ :=
  a.m.tdiv (10 ^ a.e)

/-! ## JavaScript numbers -/

/-- A JavaScript number: NaN, a signed infinity, or a finite exact
decimal (double rounding error is not modelled). -/
inductive JNum where
  | nan
  | inf (pos : Bool)
  | fin (d : DecQ)
deriving DecidableEq, Repr

/-- Truthiness of a number (`!x` negates this): NaN and 0 are falsy. -/
def JNum.truthy : JNum → Bool
  | .nan => false
  | .inf _ => true
  | .fin d => d.m != 0

/-- `isNaN` on an already-coerced number. -/
def JNum.isNaN : JNum → Bool
  | .nan => true
  | _ => false

/-- The JS comparison `x <= 0` (false for NaN). -/
def JNum.leZero : JNum → Bool
  | .nan => false
  | .inf p => !p
  | .fin d => d.m ≤ 0

/-- The JS comparison `x < 0` (false for NaN). -/
def JNum.ltZero : JNum → Bool
  | .nan => false
  | .inf p => !p
  | .fin d => d.m < 0

/-- The JS comparison `x > 0` (false for NaN). -/
def JNum.gtZero : JNum → Bool
  | .nan => false
  | .inf p => p
  | .fin d => 0 < d.m

/-- `Math.abs`. -/
def JNum.abs : JNum → JNum
  | .nan => .nan
  | .inf _ => .inf true
  | .fin d => .fin d.abs

/-- JS multiplication (`Infinity * 0` is NaN). -/
def jnumMul : JNum → JNum → JNum
  | .nan, _ => .nan
  | _, .nan => .nan
  | .inf p, .inf q => .inf (p == q)
  | .inf p, .fin d => if d.m = 0 then .nan else .inf (p == decide (0 < d.m))
  | .fin d, .inf p => if d.m = 0 then .nan else .inf (p == decide (0 < d.m))
  | .fin a, .fin b => .fin (a.mul b)

/-- JS addition (`Infinity + -Infinity` is NaN). -/
def jnumAdd : JNum → JNum → JNum
  | .nan, _ => .nan
  | _, .nan => .nan
  | .inf p, .inf q => if p = q then .inf p else .nan
  | .inf p, .fin _ => .inf p
  | .fin _, .inf p => .inf p
  | .fin a, .fin b => .fin (a.add b)

/-- `toFixed(2)` followed by re-coercion to a number: finite values are
rounded to 2 fractional digits; NaN and the infinities round-trip through
the strings "NaN" / "Infinity" unchanged. -/
def JNum.toFixed2 : JNum → JNum
  | .nan => .nan
  | .inf p => .inf p
  | .fin d => .fin d.round2

/-! ## Parsing numbers out of strings -/

def isDigitC (c : Char) : Bool := '0' ≤ c && c ≤ '9'

def digitVal (c : Char) : ℕ := c.toNat - 48

def natOfDigits (l : List Char) : ℕ :=
  l.foldl (fun a c => a * 10 + digitVal c) 0

/-- Split an optional leading sign off a character list; `true` means
negative. -/
def signSplit : List Char → Bool × List Char
  | '-' :: t => (true, t)
  | '+' :: t => (false, t)
  | l => (false, l)

def applySign (neg : Bool) (n : ℕ) : ℤ :=
  if neg then -(n : ℤ) else (n : ℤ)

/-- `parseInt(s, 10)`: skip leading whitespace, optional sign, then a
maximal run of decimal digits; `none` models NaN.  (The `0x` hex prefix of
the radix-free builtin is not modelled; no call site passes hex data.) -/
def parseIntL (l0 : List Char) : Option ℤ :=
  let l := l0.dropWhile isJsWs
  let s := signSplit l
  let ds := s.2.takeWhile isDigitC
  if ds.isEmpty then none
  else some (applySign s.1 (natOfDigits ds))

/-- Exponent suffix accepted by `parseFloat` after an `e`/`E`: optional
sign and digits; with no digits the exponent part is not consumed (JS
`parseFloat("1e")` is 1). -/
def expPart (l : List Char) : ℤ :=
  let s := signSplit l
  let ds := s.2.takeWhile isDigitC
  if ds.isEmpty then 0
  else applySign s.1 (natOfDigits ds)

/-- `parseFloat(s)`: maximal numeric prefix after leading whitespace;
supports sign, decimal point, exponent and the literal `Infinity`. -/
def parseFloatL (l0 : List Char) : JNum :=
  let l := l0.dropWhile isJsWs
  let s := signSplit l
  if ("Infinity".data).isPrefixOf s.2 then .inf (!s.1)
  else
    let ip := s.2.takeWhile isDigitC
    let r1 := s.2.drop ip.length
    let fp := match r1 with
      | '.' :: t => t.takeWhile isDigitC
      | _ => []
    let r2 := match r1 with
      | '.' :: t => t.drop (t.takeWhile isDigitC).length
      | _ => r1
    if ip.isEmpty && fp.isEmpty then .nan
    else
      let mant : DecQ := ⟨applySign s.1 (natOfDigits (ip ++ fp)), fp.length⟩
      let ex : ℤ := match r2 with
        | 'e' :: t => expPart t
        | 'E' :: t => expPart t
        | _ => 0
      .fin (mant.scale ex)

/-- Strict exponent suffix for full-string `Number(...)` coercion: the
whole remainder must be an optionally signed digit run. -/
def strictExp (base : DecQ) (l : List Char) : JNum :=
  let s := signSplit l
  let ds := s.2.takeWhile isDigitC
  if ds.isEmpty || !(s.2.drop ds.length).isEmpty then .nan
  else .fin (base.scale (applySign s.1 (natOfDigits ds)))

/-- `Number(s)` on a string: trim, empty means 0, otherwise the whole
string must be a numeric literal (decimal with optional fraction or
exponent, or a signed `Infinity`); anything else is NaN.  (Hex, octal and
binary literal prefixes are not modelled; no call site feeds them.) -/
def strToNumL (l0 : List Char) : JNum :=
  let l := jsTrimL l0
  if l.isEmpty then .fin ⟨0, 0⟩
  else
    let s := signSplit l
    if s.2 == "Infinity".data then .inf (!s.1)
    else
      let ip := s.2.takeWhile isDigitC
      let r1 := s.2.drop ip.length
      let fp := match r1 with
        | '.' :: t => t.takeWhile isDigitC
        | _ => []
      let r2 := match r1 with
        | '.' :: t => t.drop (t.takeWhile isDigitC).length
        | _ => r1
      if ip.isEmpty && fp.isEmpty then .nan
      else
        let base : DecQ := ⟨applySign s.1 (natOfDigits (ip ++ fp)), fp.length⟩
        match r2 with
        | [] => .fin base
        | 'e' :: t => strictExp base t
        | 'E' :: t => strictExp base t
        | _ => .nan

/-! ## JavaScript values -/

/-- An untyped JavaScript value, as flows through the validators. -/
inductive JSVal where
  | vUndefined
  | vNull
  | vBool (b : Bool)
  | vNum (n : JNum)
  | vStr (s : String)
  | vArr (elems : List JSVal)
  | vObj (fields : List (String × JSVal))

mutual

/-- Structural equality test for `JSVal` (decidable equality is derived
from it below; the automatic derivation does not handle the nesting). -/
def jsvalBeq : JSVal → JSVal → Bool
  | .vUndefined, .vUndefined => true
  | .vNull, .vNull => true
  | .vBool a, .vBool b => a == b
  | .vNum a, .vNum b => a == b
  | .vStr a, .vStr b => a == b
  | .vArr xs, .vArr ys => jsvalBeqArr xs ys
  | .vObj fs, .vObj gs => jsvalBeqObj fs gs
  | _, _ => false

def jsvalBeqArr : List JSVal → List JSVal → Bool
  | [], [] => true
  | x :: xs, y :: ys => jsvalBeq x y && jsvalBeqArr xs ys
  | _, _ => false

def jsvalBeqObj : List (String × JSVal) → List (String × JSVal) → Bool
  | [], [] => true
  | f :: fs, g :: gs => (f.1 == g.1 && jsvalBeq f.2 g.2) && jsvalBeqObj fs gs
  | _, _ => false

end

mutual

theorem jsvalBeq_refl : ∀ a, jsvalBeq a a = true
  | .vUndefined => rfl
  | .vNull => rfl
  | .vBool b => by simp [jsvalBeq]
  | .vNum n => by simp [jsvalBeq]
  | .vStr s => by simp [jsvalBeq]
  | .vArr xs => by simp [jsvalBeq, jsvalBeqArr_refl xs]
  | .vObj fs => by simp [jsvalBeq, jsvalBeqObj_refl fs]

theorem jsvalBeqArr_refl : ∀ xs, jsvalBeqArr xs xs = true
  | [] => rfl
  | x :: xs => by simp [jsvalBeqArr, jsvalBeq_refl x, jsvalBeqArr_refl xs]

theorem jsvalBeqObj_refl : ∀ fs, jsvalBeqObj fs fs = true
  | [] => rfl
  | f :: fs => by simp [jsvalBeqObj, jsvalBeq_refl f.2, jsvalBeqObj_refl fs]

end

mutual

theorem jsvalBeq_eq : ∀ a b, jsvalBeq a b = true → a = b
  | .vUndefined, .vUndefined, _ => rfl
  | .vNull, .vNull, _ => rfl
  | .vBool a, .vBool b, h => by simpa [jsvalBeq] using h
  | .vNum a, .vNum b, h => by
    simp only [jsvalBeq, beq_iff_eq] at h
    exact congrArg JSVal.vNum h
  | .vStr a, .vStr b, h => by
    simp only [jsvalBeq, beq_iff_eq] at h
    exact congrArg JSVal.vStr h
  | .vArr xs, .vArr ys, h =>
    congrArg JSVal.vArr (jsvalBeqArr_eq xs ys (by simpa [jsvalBeq] using h))
  | .vObj fs, .vObj gs, h =>
    congrArg JSVal.vObj (jsvalBeqObj_eq fs gs (by simpa [jsvalBeq] using h))

theorem jsvalBeqArr_eq : ∀ xs ys, jsvalBeqArr xs ys = true → xs = ys
  | [], [], _ => rfl
  | x :: xs, y :: ys, h => by
    simp only [jsvalBeqArr, Bool.and_eq_true] at h
    rw [jsvalBeq_eq x y h.1, jsvalBeqArr_eq xs ys h.2]

theorem jsvalBeqObj_eq : ∀ fs gs, jsvalBeqObj fs gs = true → fs = gs
  | [], [], _ => rfl
  | f :: fs, g :: gs, h => by
    simp only [jsvalBeqObj, Bool.and_eq_true, beq_iff_eq] at h
    have h2 : f = g := Prod.ext h.1.1 (jsvalBeq_eq f.2 g.2 h.1.2)
    rw [h2, jsvalBeqObj_eq fs gs h.2]

end

instance : DecidableEq JSVal := fun a b =>
  decidable_of_iff (jsvalBeq a b = true)
    ⟨jsvalBeq_eq a b, fun h => h ▸ jsvalBeq_refl a⟩

/-- JS truthiness. -/
def JSVal.truthy : JSVal → Bool
  | .vUndefined => false
  | .vNull => false
  | .vBool b => b
  | .vNum n => n.truthy
  | .vStr s => s ≠ ""
  | .vArr _ => true
  | .vObj _ => true

/-- `a || b`. -/
def jsOr (a b : JSVal) : JSVal := if a.truthy then a else b

/-- Last-assignment-wins association lookup: later entries of an object's
field list override earlier ones, matching JS property assignment. -/
def lookupLast (k : String) : List (String × JSVal) → Option JSVal
  | [] => none
  | f :: rest =>
    match lookupLast k rest with
    | some v => some v
    | none => if f.1 = k then some f.2 else none

/-- Property access `v[k]`.  On an object it is the stored field (or
`undefined`); on any other value it is `undefined`.  (Accessing a property
of `null`/`undefined` throws in JS; every embedded call site guards with a
truthiness or type check first, so that case is never reached.) -/
def getField (v : JSVal) (k : String) : JSVal :=
  match v with
  | .vObj fs => (lookupLast k fs).getD .vUndefined
  | _ => .vUndefined

/-! ## Stringification (`String(x)` / `toString`) -/

/-- Decimal digits of a natural number (fuel-bounded; exact for any value
below 10^40, far beyond anything this pipeline constructs). -/
def natDigitsAux : ℕ → ℕ → List Char
  | 0, _ => []
  | _ + 1, 0 => []
  | fuel + 1, n => natDigitsAux fuel (n / 10) ++ [Char.ofNat (48 + n % 10)]

def natDigits (n : ℕ) : List Char :=
  if n = 0 then ['0'] else natDigitsAux 40 n

/-- Render a finite decimal the way JS renders a double: integer digits,
then the fractional digits with trailing zeros removed.  (Exponential
notation for magnitudes beyond 1e21 is not modelled.) -/
def decToStrL (d : DecQ) : List Char :=
  let digits := natDigits d.m.natAbs
  let pad := if digits.length < d.e + 1 then List.replicate (d.e + 1 - digits.length) '0' ++ digits else digits
  let ipart := pad.take (pad.length - d.e)
  let fpart := rightTrimZeros (pad.drop (pad.length - d.e))
  (if d.m < 0 ∧ d.m.natAbs ≠ 0 then ['-'] else []) ++ ipart ++ (if fpart.isEmpty then [] else '.' :: fpart)
where
  rightTrimZeros (l : List Char) : List Char :=
    (l.reverse.dropWhile (· == '0')).reverse

/-- `String(x)` on a number. -/
def jnumToStrL : JNum → List Char
  | .nan => "NaN".data
  | .inf true => "Infinity".data
  | .inf false => "-Infinity".data
  | .fin d => decToStrL d

mutual

/-- `String(x)` / `toString()`.  Arrays join their elements with commas
(`null`/`undefined` elements become empty); plain objects print as
`[object Object]`. -/
def jsToStrL : JSVal → List Char
  | .vUndefined => "undefined".data
  | .vNull => "null".data
  | .vBool true => "true".data
  | .vBool false => "false".data
  | .vNum n => jnumToStrL n
  | .vStr s => s.data
  | .vArr xs => jsArrStrL xs
  | .vObj _ => "[object Object]".data

def jsArrStrL : List JSVal → List Char
  | [] => []
  | [.vUndefined] => []
  | [.vNull] => []
  | [x] => jsToStrL x
  | .vUndefined :: y :: rest => ',' :: jsArrStrL (y :: rest)
  | .vNull :: y :: rest => ',' :: jsArrStrL (y :: rest)
  | x :: y :: rest => jsToStrL x ++ ',' :: jsArrStrL (y :: rest)

end

/-- `String(x)` as a Lean string. -/
def jsToStr (v : JSVal) : String := ⟨jsToStrL v⟩

/-! ## Numeric coercions on values -/

/-- `Number(x)`. -/
def jsToNumber : JSVal → JNum
  | .vUndefined => .nan
  | .vNull => .fin ⟨0, 0⟩
  | .vBool b => .fin ⟨if b then 1 else 0, 0⟩
  | .vNum n => n
  | .vStr s => strToNumL s.data
  | .vArr xs => strToNumL (jsArrStrL xs)
  | .vObj _ => .nan

/-- `parseFloat(x)`: the argument is coerced to a string first.  A number
argument round-trips exactly (`parseFloat(String(d))` recovers any finite
double). -/
def jsParseFloat : JSVal → JNum
  | .vNum n => n
  | v => parseFloatL (jsToStrL v)

/-- `parseInt(x, 10)`: the argument is coerced to a string first, so a
finite number truncates toward zero; `none` models NaN.  (The exponential
rendering of magnitudes beyond 1e21, which would confuse `parseInt`, is
not modelled.) -/
def jsParseInt : JSVal → Option ℤ
  | .vNum (.fin d) => some d.trunc
  | v => parseIntL (jsToStrL v)

/-! ## ClaimValidator, variant of src/unnamed/part_000

`validateClaims(rawClaims)`: a loop over the candidates; each surviving
candidate is re-emitted as a fresh object with fields
`sku, reason, quantity, estimatedValue` (and nothing else). -/

/-- Processing of one candidate by the part_000 validator: `none` means the
candidate is dropped (`continue`). -/
def p0Emit (c : JSVal) : Option JSVal :=
  if !c.truthy then none
  else
    let sku := jsTrim (jsToStr (jsOr (getField c "sku") (.vStr "")))
    let reason := jsTrim (jsToStr (jsOr (getField c "reason") (.vStr "")))
    let qty := jsToNumber (getField c "quantity")
    let est := jsToNumber (getField c "estimatedValue")
    if sku = "" || reason = "" then none
    else if !qty.truthy || qty.leZero || qty.isNaN then none
    else if !est.truthy || est.leZero || est.isNaN then none
    else some (.vObj [("sku", .vStr sku), ("reason", .vStr reason),
                      ("quantity", .vNum qty), ("estimatedValue", .vNum est.toFixed2)])

/-- `validateClaims` of src/unnamed/part_000: non-arrays yield `[]`;
otherwise the per-candidate filter runs over the list. -/
def validateClaims_p0 : JSVal → List JSVal
  | .vArr xs => xs.filterMap p0Emit
  | _ => []

/-! ## ClaimValidator, variant of src/unnamed/part_004 (lines 388-438)

`validateClaims(claims)`: requires each candidate to be a non-null object
with truthy `sku`, `claimReason`, `quantity`, `estimatedValue`; sanitizes
via `parseInt` / `parseFloat`; `amazonTransactionId` defaults to `null`
(not a string) when absent or falsy. -/

/-- The sanitized claim record built by the part_004 validator.
`amazonTransactionId = none` models JS `null`. -/
structure Claim_p4 where
  sku : String
  claimReason : String
  quantity : ℤ
  estimatedValue : JNum
  amazonTransactionId : Option String
deriving DecidableEq, Repr

/-- Processing of one candidate by the part_004 validator. -/
def p4Emit (claim : JSVal) : Option Claim_p4 :=
  match claim with
  | .vObj _ | .vArr _ =>
    -- requiredFields.some(field => !claim[field])
    if !(getField claim "sku").truthy || !(getField claim "claimReason").truthy
        || !(getField claim "quantity").truthy || !(getField claim "estimatedValue").truthy then
      none
    else
      match jsParseInt (getField claim "quantity") with
      | none => none              -- isNaN(quantity)
      | some quantity =>
        if quantity ≤ 0 then none
        else
          let estimatedValue := jsParseFloat (getField claim "estimatedValue")
          if estimatedValue.isNaN || estimatedValue.leZero then none
          else some {
            sku := jsTrim (jsToStr (getField claim "sku")),
            claimReason := jsTrim (jsToStr (getField claim "claimReason")),
            quantity := quantity,
            estimatedValue := estimatedValue.toFixed2,
            amazonTransactionId :=
              if (getField claim "amazonTransactionId").truthy then
                some (jsTrim (jsToStr (getField claim "amazonTransactionId")))
              else none }
  | _ => none                     -- typeof claim !== 'object' (null included)

/-- `validateClaims` of src/unnamed/part_004: non-arrays yield `[]`. -/
def validateClaims_p4 : JSVal → List Claim_p4
  | .vArr xs => xs.filterMap p4Emit
  | _ => []

/-- The `/api/audit` total of src/unnamed/part_004 (lines 200-203):
`claims.reduce((sum, c) => sum + (parseFloat(c.estimatedValue) || 0), 0)`. -/
def totalEstimatedValue_p4 (claims : List Claim_p4) : JNum :=
  claims.foldl
    (fun sum c =>
      jnumAdd sum
        (if (jsParseFloat (.vNum c.estimatedValue)).truthy then jsParseFloat (.vNum c.estimatedValue)
         else .fin ⟨0, 0⟩))
    (.fin ⟨0, 0⟩)

/-- The exact arithmetic sum of `estimatedValue` over a claim list. -/
def sumEstimated (claims : List Claim_p4) : JNum :=
  claims.foldl (fun sum c => jnumAdd sum c.estimatedValue) (.fin ⟨0, 0⟩)

/-! ## ClaimValidator, variant of src/utils/validateClaims.js

`validateClaims(rows)`: heuristic claim detection from ledger rows
(quantity sign + disposition).  The field reads use optional chaining
(`row.sku?.trim()`), which throws a TypeError when the field holds a
non-nullish value that is not a string; the whole call then raises.
`none` at the outer level models that exception. -/

/-- `x?.trim()`: `none` models a thrown TypeError (the value is neither a
string nor nullish, so `.trim` is not callable); `some none` models
`undefined`. -/
def optTrim : JSVal → Option (Option String)
  | .vUndefined => some none
  | .vNull => some none
  | .vStr s => some (some (jsTrim s))
  | _ => none

/-- A claim emitted by the src/utils variant.  `amazonTransactionId` keeps
the raw `row["reference-id"] || "N/A"` value, which is emitted untouched. -/
structure ClaimUV where
  sku : String
  claimReason : String
  quantity : JNum
  estimatedValue : JNum
  amazonTransactionId : JSVal
deriving DecidableEq

/-- Processing of one row by the src/utils validator: outer `none` is a
thrown TypeError, `some none` is a skipped row (`continue`). -/
def uvRow (row : JSVal) : Option (Option ClaimUV) :=
  if !row.truthy then some none
  else
    match optTrim (getField row "sku") with
    | none => none
    | some sku? =>
      let qty := jsParseFloat (getField row "quantity")
      let unitCost := jsParseFloat (getField row "unit-cost")
      match optTrim (getField row "transaction-type") with
      | none => none
      | some eventType? =>
        match optTrim (getField row "disposition") with
        | none => none
        | some disposition? =>
          match optTrim (getField row "reason") with
          | none => none
          | some _reasonCode? =>
            let refId := jsOr (getField row "reference-id") (.vStr "N/A")
            -- if (!sku || isNaN(qty) || isNaN(unitCost)) continue
            if sku?.getD "" = "" || qty.isNaN || unitCost.isNaN then some none
            -- if (qty > 0) continue  (ignore positive "Found" quantities)
            else if qty.gtZero then some none
            else
              let detectedReason : Option String :=
                if qty.ltZero && (disposition? == some "SELLABLE") then some "Lost Inventory"
                else if qty.ltZero && !(disposition? == some "SELLABLE") then some "Damaged Inventory"
                else if (eventType? == some "Adjustments") && qty.ltZero then
                  some "Unexplained Adjustment Loss"
                else none
              match detectedReason with
              | none => some none
              | some r => some (some {
                  sku := sku?.getD "",
                  claimReason := r,
                  quantity := qty.abs,
                  estimatedValue := (jnumMul qty unitCost).abs,
                  amazonTransactionId := refId })

/-- The loop of the src/utils validator: an exception in any row aborts
the whole call. -/
def uvGo : List JSVal → Option (List ClaimUV)
  | [] => some []
  | r :: rest =>
    match uvRow r with
    | none => none
    | some none => uvGo rest
    | some (some c) =>
      match uvGo rest with
      | none => none
      | some cs => some (c :: cs)

/-- `validateClaims` of src/utils/validateClaims.js: non-arrays yield
`[]`; `none` models a thrown TypeError. -/
def validateClaims_uv : JSVal → Option (List ClaimUV)
  | .vArr xs => uvGo xs
  | _ => some []

/-! ## EligibilityClassifier, variant of src/utils/parseCSV.js

`preprocessCSV(csvContent)`: naive comma split, header-keyed object per
row, alias resolution by exact key, absolute-value quantity with default
1, `estimatedValue = quantity * 8.5` rounded to 2 digits, transaction id
defaulted to "N/A".  Every data row is emitted (`lines.slice(1).map`). -/

/-- A normalized row emitted by the src/utils preprocessor. -/
structure RowU where
  sku : String
  reason : String
  quantity : ℤ
  estimatedValue : DecQ
  amazonTransactionId : String
deriving DecidableEq, Repr

/-- `obj[key]` for the row object built by `headers.forEach(obj[h] = values[i])`:
the last assignment for a repeated header wins; a header beyond the row's
cells stores `undefined` (`none`). -/
def objGetU (hs vs : List String) (key : String) : Option String :=
  (List.range hs.length).foldl (fun acc i => if hs[i]? = some key then vs[i]? else acc) none

/-- A chain `a || b || ...` over field reads: the first non-empty string
(empty strings and `undefined` are falsy). -/
def firstTruthyStr : List (Option String) → Option String
  | [] => none
  | some s :: rest => if s = "" then firstTruthyStr rest else some s
  | none :: rest => firstTruthyStr rest

/-- The trimmed cells of one data line (`line.split(",").map(v => v.trim())`). -/
def valuesU (line : List Char) : List String :=
  (splitChar ',' line).map (fun c => jsTrim ⟨c⟩)

/-- The quantity-alias chain
`obj.quantity || obj.qty || obj["quantity-researched"] || obj["adjusted-quantity"]`. -/
def qtyRawU (hs vs : List String) : Option String :=
  firstTruthyStr [objGetU hs vs "quantity", objGetU hs vs "qty",
    objGetU hs vs "quantity-researched", objGetU hs vs "adjusted-quantity"]

/-- The transaction-id alias chain
`obj["reference-id"] || obj["event-id"] || obj["transaction-id"] || obj["amazon-order-id"]`. -/
def txRawU (hs vs : List String) : Option String :=
  firstTruthyStr [objGetU hs vs "reference-id", objGetU hs vs "event-id",
    objGetU hs vs "transaction-id", objGetU hs vs "amazon-order-id"]

/-- One data row of the src/utils preprocessor. -/
def rowU (headers : List String) (line : List Char) : RowU :=
  let values := valuesU line
  let g := objGetU headers values
  let sku := (firstTruthyStr [g "sku", g "SKU", g "sku-id", g "seller-sku", g "item-sku"]).getD ""
  let reason := (firstTruthyStr [g "reason", g "disposition", g "researching",
    g "reason-code", g "claims-reason"]).getD "Lost inventory"
  -- parseInt(... || 1); if (isNaN(quantity)) quantity = 1; quantity = Math.abs(quantity)
  let q : ℤ := match qtyRawU headers values with
    | none => 1
    | some s => (parseIntL s.data).getD 1
  let quantity : ℤ := |q|
  -- parseFloat(Number(quantity * 8.5).toFixed(2))
  let estimatedValue : DecQ := DecQ.round2 (DecQ.mul ⟨quantity, 0⟩ ⟨85, 1⟩)
  let tx := (txRawU headers values).getD ""
  { sku := jsTrim sku, reason := jsTrim reason, quantity := quantity,
    estimatedValue := estimatedValue,
    amazonTransactionId := if tx = "" then "N/A" else tx }

/-- `preprocessCSV` of src/utils/parseCSV.js.  The input is typed as a
string, so of the `!csvContent || typeof csvContent !== "string"` guard
only the empty-string case is reachable. -/
def preprocessCSV_u (csvContent : String) : List RowU :=
  if csvContent = "" then []
  else
    let lines := splitChar '\n' (jsTrimL csvContent.data)
    let headers := (splitChar ',' (lines.headD [])).map (fun c => jsTrim ⟨c⟩)
    (lines.drop 1).map (rowU headers)

/-! ## EligibilityClassifier, variant of src/unnamed/part_001

`preprocessCSV(csvText)`: quote-aware splitting, substring-based header
resolution, heuristic filtering (`qty < 0` or keyword match), signed
quantity preserved, capped at 400 candidate rows. -/

/-- A candidate row emitted by the part_001 preprocessor. -/
structure RowP1 where
  sku : String
  quantity : JNum
  reason : String
  referenceId : String
  rawReason : String
deriving DecidableEq, Repr

/-- `splitCsvLine`: comma split respecting quoted fields, with doubled
quotes escaping a quote character inside a quoted field. -/
def splitCsvAux : List Char → Bool → List Char → List (List Char)
  | [], _, cur => [cur.reverse]
  | '"' :: '"' :: rest, true, cur => splitCsvAux rest true ('"' :: cur)
  | '"' :: rest, inQ, cur => splitCsvAux rest (!inQ) cur
  | ',' :: rest, false, cur => cur.reverse :: splitCsvAux rest false []
  | c :: rest, inQ, cur => splitCsvAux rest inQ (c :: cur)

/-- The regex `/^"|"$/g`: strip one leading and one trailing quote. -/
def stripEdgeQuotes (l : List Char) : List Char :=
  let l1 := match l with
    | '"' :: t => t
    | _ => l
  match l1.reverse with
  | '"' :: t => t.reverse
  | _ => l1

/-- `safeCell(cells, idx)`: total cell access — out-of-range or negative
(unresolved, -1) indices give the empty string; in-range cells are
unquoted and trimmed. -/
def safeCell (cells : List String) (idx : ℤ) : String :=
  if idx < 0 ∨ (cells.length : ℤ) ≤ idx then ""
  else jsTrim ⟨stripEdgeQuotes (cells.getD idx.toNat "").data⟩

/-- `findCol(candidates)`: the first candidate substring found in some
header wins, scanning headers left to right; -1 when none match. -/
def findCol (headers : List String) : List String → ℤ
  | [] => -1
  | cand :: rest =>
    match headers.findIdx? (fun h => containsSubL cand.data h.data) with
    | some i => (i : ℤ)
    | none => findCol headers rest

/-- The keyword alternatives of the part_001 eligibility regex
`/lost|missing|damaged|warehouse|dispose|scrap|found|unfound|reimburs|claim/`. -/
def p1Keywords : List String :=
  ["lost", "missing", "damaged", "warehouse", "dispose", "scrap", "found",
   "unfound", "reimburs", "claim"]

def p1KeywordHit (l : List Char) : Bool :=
  p1Keywords.any (fun k => containsSubL k.data l)

/-- Split into lines on `/\r?\n/` and drop blank lines. -/
def linesP1 (s : String) : List (List Char) :=
  ((splitChar '\n' s.data).map dropCRend).filter (fun l => !(jsTrimL l).isEmpty)
where
  dropCRend (l : List Char) : List Char :=
    match l.reverse with
    | '\r' :: t => t.reverse
    | _ => l

/-- One loop iteration of the part_001 preprocessor: `none` when the row
is skipped as not reimbursement-worthy. -/
def p1Row (idxSku idxQty idxReason idxRef : ℤ) (line : List Char) : Option RowP1 :=
  if (jsTrimL line).isEmpty then none
  else
    let cells := (splitCsvAux line false []).map (fun c => (⟨c⟩ : String))
    let sku := safeCell cells idxSku
    let qtyStr := safeCell cells idxQty
    let reason := safeCell cells idxReason
    let referenceId := safeCell cells idxRef
    -- const qty = parseFloat(qtyStr || "0") || 0
    let qty0 := parseFloatL (if qtyStr = "" then "0".data else qtyStr.data)
    let qty := if qty0.truthy then qty0 else .fin ⟨0, 0⟩
    let reasonLower := reason.data.map Char.toLower
    if qty.ltZero || p1KeywordHit reasonLower then
      some { sku := sku, quantity := qty, reason := reason,
             referenceId := referenceId, rawReason := reason }
    else none

/-- The row loop with the `MAX_ROWS_FOR_AI = 400` cap (break after the
push that reaches 400 rows). -/
def p1Go (iS iQ iR iRef : ℤ) : List (List Char) → ℕ → List RowP1
  | [], _ => []
  | l :: rest, count =>
    match p1Row iS iQ iR iRef l with
    | none => p1Go iS iQ iR iRef rest count
    | some r =>
      if count + 1 ≥ 400 then [r]
      else r :: p1Go iS iQ iR iRef rest (count + 1)

/-- `preprocessCSV` of src/unnamed/part_001. -/
def preprocessCSV_p1 (csvText : String) : List RowP1 :=
  if csvText = "" then []
  else
    let lines := linesP1 csvText
    if lines.length < 2 then []
    else
      let headers := (splitCsvAux (lines.headD []) false []).map
        (fun c => (⟨(jsTrimL c).map Char.toLower⟩ : String))
      let idxSku := findCol headers ["seller sku", "seller_sku", "sku", "product sku", "asin"]
      let idxQty := findCol headers ["quantity", "qty", "quantity-change", "quantity change",
        "quantity adjusted", "quantity adjusted"]
      let idxReason := findCol headers ["reason", "event type", "event-type", "event code",
        "adjustment type", "adjustment-type", "disposition", "memo"]
      let idxRef := findCol headers ["reference id", "reference-id", "transaction id", "id",
        "event id"]
      p1Go idxSku idxQty idxReason idxRef (lines.drop 1) 0

/-! ## Auxiliary predicates used in the claim statements -/

/-- Is this value a string? (The spec's "the transaction id is a string".) -/
def isStringVal : JSVal → Bool
  | .vStr _ => true
  | _ => false

/-- Values on which `?.trim()` does not throw: strings and nullish values. -/
def stringish : JSVal → Bool
  | .vStr _ => true
  | .vNull => true
  | .vUndefined => true
  | _ => false

/-- A row the src/utils validator can process without a TypeError: falsy,
or all four optionally-chained string fields hold strings or nullish
values. -/
def uvRowSafe (r : JSVal) : Prop :=
  r.truthy = false ∨
    (stringish (getField r "sku") = true ∧ stringish (getField r "transaction-type") = true ∧
     stringish (getField r "disposition") = true ∧ stringish (getField r "reason") = true)

instance (r : JSVal) : Decidable (uvRowSafe r) := by
  unfold uvRowSafe
  infer_instance

/-- Semantic view of a JS number: the exact rational value of a finite
decimal, NaN and infinities kept apart.  Used to compare numbers by value
rather than by mantissa/exponent representation. -/
inductive SemNum where
  | nan
  | inf (pos : Bool)
  | fin (q : ℚ)

def JNum.sem : JNum → SemNum
  | .nan => .nan
  | .inf p => .inf p
  | .fin d => .fin d.toQ

/-! ## General lemmas about the string primitives -/

theorem dropWhile_isJsWs_idem (l : List Char) :
    (l.dropWhile isJsWs).dropWhile isJsWs = l.dropWhile isJsWs := by
  induction l with
  | nil => rfl
  | cons c t ih =>
    by_cases h : isJsWs c = true
    · simpa [List.dropWhile_cons, h] using ih
    · simp [List.dropWhile_cons, h]

theorem rightTrimL_idem (l : List Char) : rightTrimL (rightTrimL l) = rightTrimL l := by
  induction l with
  | nil => rfl
  | cons c t ih =>
    by_cases h : ((rightTrimL t).isEmpty && isJsWs c) = true
    · simp [rightTrimL, h]
    · simp only [rightTrimL, h, if_false]
      simp only [rightTrimL, ih, h, if_false]

theorem dropWhile_rightTrimL (l : List Char) (h : l.dropWhile isJsWs = l) :
    (rightTrimL l).dropWhile isJsWs = rightTrimL l := by
  cases l with
  | nil => rfl
  | cons c t =>
    have hc : isJsWs c = false := by
      cases hx : isJsWs c with
      | false => rfl
      | true =>
        exfalso
        simp only [List.dropWhile_cons, hx, if_true] at h
        have h1 : (List.dropWhile isJsWs t).length = t.length + 1 := by
          simpa using congrArg List.length h
        have h2 := (List.dropWhile_sublist (l := t) isJsWs).length_le
        omega
    simp [rightTrimL, hc, List.dropWhile_cons]

theorem jsTrimL_idem (l : List Char) : jsTrimL (jsTrimL l) = jsTrimL l := by
  unfold jsTrimL
  rw [dropWhile_rightTrimL _ (dropWhile_isJsWs_idem l), rightTrimL_idem]

theorem jsTrim_idem (s : String) : jsTrim (jsTrim s) = jsTrim s := by
  unfold jsTrim
  exact congrArg String.mk (jsTrimL_idem s.data)

/-! ## General lemmas about the decimal numbers -/

theorem DecQ.round2_round2 (d : DecQ) : d.round2.round2 = d.round2 := by
  unfold DecQ.round2
  simp only [DecQ.mk.injEq, and_true]
  set n := (200 * d.m + 10 ^ d.e).fdiv (2 * 10 ^ d.e) with hn
  have h200 : (200 : ℤ) * n + 10 ^ 2 = 100 + n * 200 := by ring
  rw [h200, Int.fdiv_eq_ediv _ (by norm_num)]
  rw [show ((2 : ℤ) * 10 ^ 2) = 200 by norm_num]
  rw [Int.add_mul_ediv_right _ _ (by norm_num : (200 : ℤ) ≠ 0)]
  norm_num

theorem DecQ.round2_m_nonneg (d : DecQ) (h : 0 ≤ d.m) : 0 ≤ d.round2.m := by
  unfold DecQ.round2
  exact Int.fdiv_nonneg (by positivity) (by positivity)

theorem JNum.toFixed2_toFixed2 (n : JNum) : n.toFixed2.toFixed2 = n.toFixed2 := by
  cases n with
  | nan => rfl
  | inf p => rfl
  | fin d => simp [JNum.toFixed2, DecQ.round2_round2]

theorem JNum.toFixed2_isNaN (n : JNum) : n.toFixed2.isNaN = n.isNaN := by
  cases n <;> rfl

/-- A number that passed `isNaN(x)`-false and `x <= 0`-false checks is
`> 0`. -/
theorem JNum.gtZero_of_checks (n : JNum) (h1 : n.isNaN = false) (h2 : n.leZero = false) :
    n.gtZero = true := by
  cases n with
  | nan => simp [JNum.isNaN] at h1
  | inf p => simpa [JNum.leZero, JNum.gtZero] using h2
  | fin d =>
    simp only [JNum.leZero, decide_eq_false_iff_not, not_le] at h2
    simpa [JNum.gtZero] using h2

/-! ## General list helpers -/

theorem filterMap_fixed {α : Type} (f : α → Option α) :
    ∀ (l : List α), (∀ a ∈ l, f a = some a) → l.filterMap f = l
  | [], _ => rfl
  | a :: l, h => by
    have ha := h a (List.mem_cons_self a l)
    simp only [List.filterMap_cons, ha]
    rw [filterMap_fixed f l (fun b hb => h b (List.mem_cons_of_mem a hb))]

/-! ## Structure of the part_000 validator's output -/

/-- Anatomy of a claim emitted by `p0Emit`: a four-field object whose sku
and reason are trimmed non-empty strings and whose numbers passed the
truthiness / sign / NaN checks (the estimated value is stored rounded). -/
theorem p0Emit_eq_some {x c : JSVal} (h : p0Emit x = some c) :
    ∃ (sku reason : String) (qty est : JNum),
      c = .vObj [("sku", .vStr sku), ("reason", .vStr reason),
                 ("quantity", .vNum qty), ("estimatedValue", .vNum est.toFixed2)] ∧
      jsTrim sku = sku ∧ sku ≠ "" ∧ jsTrim reason = reason ∧ reason ≠ "" ∧
      qty.truthy = true ∧ qty.leZero = false ∧ qty.isNaN = false ∧
      est.truthy = true ∧ est.leZero = false ∧ est.isNaN = false := by
  unfold p0Emit at h
  dsimp only at h
  split_ifs at h with h1 h2 h3 h4
  injection h with h
  subst h
  simp only [not_or, Bool.not_eq_true, Bool.or_eq_true, Bool.not_eq_true',
    decide_eq_true_eq] at h2 h3 h4
  refine ⟨_, _, _, _, rfl, jsTrim_idem _, h2.1, jsTrim_idem _, h2.2,
    ?_, ?_, ?_, ?_, ?_, ?_⟩
  · simpa using h3.1.1
  · simpa using h3.1.2
  · simpa using h3.2
  · simpa using h4.1.1
  · simpa using h4.1.2
  · simpa using h4.2

/-- Membership in the part_000 validator's output comes from some input
candidate. -/
theorem validateClaims_p0_mem {v c : JSVal} (h : c ∈ validateClaims_p0 v) :
    ∃ x, p0Emit x = some c := by
  cases v with
  | vArr xs =>
    simp only [validateClaims_p0, List.mem_filterMap] at h
    obtain ⟨a, _, ha⟩ := h
    exact ⟨a, ha⟩
  | vUndefined => simp [validateClaims_p0] at h
  | vNull => simp [validateClaims_p0] at h
  | vBool b => simp [validateClaims_p0] at h
  | vNum n => simp [validateClaims_p0] at h
  | vStr s => simp [validateClaims_p0] at h
  | vObj fs => simp [validateClaims_p0] at h

/-- A rounded estimated value that stayed truthy stays strictly positive,
so it passes the `est <= 0` check on a second run. -/
theorem toFixed2_leZero_false (est : JNum) (h2 : est.leZero = false) (h3 : est.isNaN = false)
    (ht : est.toFixed2.truthy = true) : est.toFixed2.leZero = false := by
  cases est with
  | nan => simp [JNum.isNaN] at h3
  | inf p =>
    simpa [JNum.toFixed2, JNum.leZero] using h2
  | fin d =>
    simp only [JNum.leZero, decide_eq_false_iff_not, not_le] at h2
    have hnn : 0 ≤ d.round2.m := DecQ.round2_m_nonneg d (le_of_lt h2)
    simp only [JNum.toFixed2, JNum.truthy, bne_iff_ne, ne_eq] at ht
    simp only [JNum.toFixed2, JNum.leZero, decide_eq_false_iff_not, not_le]
    omega

/-- A claim emitted by the part_000 validator revalidates to itself,
provided its (already rounded) estimated value is still truthy. -/
theorem p0Emit_fixed {c : JSVal} (hc : ∃ x, p0Emit x = some c)
    (ht : (jsToNumber (getField c "estimatedValue")).truthy = true) :
    p0Emit c = some c := by
  obtain ⟨x, hx⟩ := hc
  obtain ⟨sku, reason, qty, est, rfl, hs1, hs2, hr1, hr2, hq1, hq2, hq3, he1, he2, he3⟩ :=
    p0Emit_eq_some hx
  have hget : getField (JSVal.vObj [("sku", .vStr sku), ("reason", .vStr reason),
      ("quantity", .vNum qty), ("estimatedValue", .vNum est.toFixed2)]) "estimatedValue"
      = .vNum est.toFixed2 := by
    simp [getField, lookupLast]
  rw [hget] at ht
  have htt : est.toFixed2.truthy = true := ht
  have hle : est.toFixed2.leZero = false := toFixed2_leZero_false est he2 he3 htt
  have hnan : est.toFixed2.isNaN = false := by rw [JNum.toFixed2_isNaN]; exact he3
  unfold p0Emit
  simp only [getField, lookupLast, JSVal.truthy, Bool.not_true, jsOr, jsToStr, jsToStrL]
  simp only [if_neg (by decide : ¬("reason" = "sku")), if_neg (by decide : ¬("quantity" = "sku")),
    if_neg (by decide : ¬("estimatedValue" = "sku"))]
  simp [jsOr, JSVal.truthy, hs2, hr2, jsToStr, jsToStrL, jsToNumber, hs1, hr1,
    hq1, hq2, hq3, htt, hle, hnan, JNum.toFixed2_toFixed2]

/-! ## Claim C1 -/

/-- C1 (amended): every Claim emitted by the part_000 `validateClaims`
satisfies: sku is a non-empty trimmed string, reason is a non-empty
trimmed string, quantity coerces to a number `> 0`, and estimatedValue is
the 2-digit rounding of a number that coerced to `> 0`; but no transaction
id field is emitted at all (neither `amazonTransactionId` nor
`transactionId` is present), so no constraint on it can hold. -/
theorem claim_C1_output_invariants (v c : JSVal) (h : c ∈ validateClaims_p0 v) :
    (∃ s, getField c "sku" = .vStr s ∧ jsTrim s = s ∧ s ≠ "") ∧
    (∃ r, getField c "reason" = .vStr r ∧ jsTrim r = r ∧ r ≠ "") ∧
    (∃ q, getField c "quantity" = .vNum q ∧ q.gtZero = true) ∧
    (∃ e, getField c "estimatedValue" = .vNum (JNum.toFixed2 e) ∧ e.gtZero = true) ∧
    getField c "amazonTransactionId" = .vUndefined ∧ getField c "transactionId" = .vUndefined := by
  obtain ⟨x, hx⟩ := validateClaims_p0_mem h
  obtain ⟨sku, reason, qty, est, rfl, hs1, hs2, hr1, hr2, hq1, hq2, hq3, he1, he2, he3⟩ :=
    p0Emit_eq_some hx
  refine ⟨⟨sku, ?_, hs1, hs2⟩, ⟨reason, ?_, hr1, hr2⟩,
    ⟨qty, ?_, JNum.gtZero_of_checks qty hq3 hq2⟩,
    ⟨est, ?_, JNum.gtZero_of_checks est he3 he2⟩, ?_, ?_⟩ <;>
    simp [getField, lookupLast]

/-- C1 counterexample: a fully valid candidate produces a Claim that has
no transaction-id field at all (`undefined`, not a string), refuting the
five-constraint invariant as stated. -/
theorem claim_C1_counterexample :
    validateClaims_p0 (.vArr [.vObj [("sku", .vStr "A-1"), ("reason", .vStr "Lost inventory"),
        ("quantity", .vNum (.fin ⟨2, 0⟩)), ("estimatedValue", .vNum (.fin ⟨10, 0⟩))]]) =
      [.vObj [("sku", .vStr "A-1"), ("reason", .vStr "Lost inventory"),
        ("quantity", .vNum (.fin ⟨2, 0⟩)), ("estimatedValue", .vNum (.fin ⟨1000, 2⟩))]] ∧
    isStringVal (getField (.vObj [("sku", .vStr "A-1"), ("reason", .vStr "Lost inventory"),
        ("quantity", .vNum (.fin ⟨2, 0⟩)), ("estimatedValue", .vNum (.fin ⟨1000, 2⟩))])
      "amazonTransactionId") = false ∧
    isStringVal (getField (.vObj [("sku", .vStr "A-1"), ("reason", .vStr "Lost inventory"),
        ("quantity", .vNum (.fin ⟨2, 0⟩)), ("estimatedValue", .vNum (.fin ⟨1000, 2⟩))])
      "transactionId") = false := by decide

/-- C1 witness: the amended invariant, instantiated at a concrete
candidate list and the concrete Claim it emits. -/
theorem claim_C1_witness :
    (∃ s, getField (.vObj [("sku", .vStr "A-1"), ("reason", .vStr "Lost inventory"),
        ("quantity", .vNum (.fin ⟨2, 0⟩)), ("estimatedValue", .vNum (.fin ⟨1000, 2⟩))]) "sku"
        = .vStr s ∧ jsTrim s = s ∧ s ≠ "") ∧
    (∃ r, getField (.vObj [("sku", .vStr "A-1"), ("reason", .vStr "Lost inventory"),
        ("quantity", .vNum (.fin ⟨2, 0⟩)), ("estimatedValue", .vNum (.fin ⟨1000, 2⟩))]) "reason"
        = .vStr r ∧ jsTrim r = r ∧ r ≠ "") ∧
    (∃ q, getField (.vObj [("sku", .vStr "A-1"), ("reason", .vStr "Lost inventory"),
        ("quantity", .vNum (.fin ⟨2, 0⟩)), ("estimatedValue", .vNum (.fin ⟨1000, 2⟩))]) "quantity"
        = .vNum q ∧ q.gtZero = true) ∧
    (∃ e, getField (.vObj [("sku", .vStr "A-1"), ("reason", .vStr "Lost inventory"),
        ("quantity", .vNum (.fin ⟨2, 0⟩)), ("estimatedValue", .vNum (.fin ⟨1000, 2⟩))])
        "estimatedValue" = .vNum (JNum.toFixed2 e) ∧ e.gtZero = true) ∧
    getField (.vObj [("sku", .vStr "A-1"), ("reason", .vStr "Lost inventory"),
        ("quantity", .vNum (.fin ⟨2, 0⟩)), ("estimatedValue", .vNum (.fin ⟨1000, 2⟩))])
      "amazonTransactionId" = .vUndefined ∧
    getField (.vObj [("sku", .vStr "A-1"), ("reason", .vStr "Lost inventory"),
        ("quantity", .vNum (.fin ⟨2, 0⟩)), ("estimatedValue", .vNum (.fin ⟨1000, 2⟩))])
      "transactionId" = .vUndefined :=
  claim_C1_output_invariants
    (.vArr [.vObj [("sku", .vStr "A-1"), ("reason", .vStr "Lost inventory"),
      ("quantity", .vNum (.fin ⟨2, 0⟩)), ("estimatedValue", .vNum (.fin ⟨10, 0⟩))]])
    (.vObj [("sku", .vStr "A-1"), ("reason", .vStr "Lost inventory"),
      ("quantity", .vNum (.fin ⟨2, 0⟩)), ("estimatedValue", .vNum (.fin ⟨1000, 2⟩))])
    (by decide)

/-! ## Claim C6 -/

/-- C6 (amended): re-running the part_000 `validateClaims` on its own
output is a no-op, provided every emitted claim's (rounded)
`estimatedValue` is still truthy (non-zero).  Rounding an estimated value
in (0, 0.005) to 2 digits yields exactly 0, and such a claim is dropped
on the second pass, so the unconditional idempotence of the original
claim fails. -/
theorem claim_C6_idempotent (v : JSVal)
    (h : ∀ c ∈ validateClaims_p0 v,
      (jsToNumber (getField c "estimatedValue")).truthy = true) :
    validateClaims_p0 (.vArr (validateClaims_p0 v)) = validateClaims_p0 v := by
  show (validateClaims_p0 v).filterMap p0Emit = validateClaims_p0 v
  exact filterMap_fixed p0Emit (validateClaims_p0 v)
    (fun c hc => p0Emit_fixed (validateClaims_p0_mem hc) (h c hc))

/-- C6 counterexample: a candidate with `estimatedValue = 0.004` passes
validation (0.004 > 0) and is emitted with the rounded value 0; re-running
the validator on that output drops the claim, so validateClaims applied to
its own output is not the identity. -/
theorem claim_C6_counterexample :
    validateClaims_p0 (.vArr (validateClaims_p0 (.vArr [.vObj [("sku", .vStr "A-1"),
        ("reason", .vStr "Lost"), ("quantity", .vNum (.fin ⟨1, 0⟩)),
        ("estimatedValue", .vNum (.fin ⟨4, 3⟩))]]))) = [] ∧
    validateClaims_p0 (.vArr [.vObj [("sku", .vStr "A-1"), ("reason", .vStr "Lost"),
        ("quantity", .vNum (.fin ⟨1, 0⟩)), ("estimatedValue", .vNum (.fin ⟨4, 3⟩))]]) ≠ [] := by
  decide

/-- C6 witness: the conditional idempotence applied to a concrete
candidate list whose emitted estimated value stays positive. -/
theorem claim_C6_witness :
    validateClaims_p0 (.vArr (validateClaims_p0 (.vArr [.vObj [("sku", .vStr "A-1"),
        ("reason", .vStr "Lost"), ("quantity", .vNum (.fin ⟨1, 0⟩)),
        ("estimatedValue", .vNum (.fin ⟨10, 0⟩))]]))) =
    validateClaims_p0 (.vArr [.vObj [("sku", .vStr "A-1"), ("reason", .vStr "Lost"),
        ("quantity", .vNum (.fin ⟨1, 0⟩)), ("estimatedValue", .vNum (.fin ⟨10, 0⟩))]]) :=
  claim_C6_idempotent
    (.vArr [.vObj [("sku", .vStr "A-1"), ("reason", .vStr "Lost"),
      ("quantity", .vNum (.fin ⟨1, 0⟩)), ("estimatedValue", .vNum (.fin ⟨10, 0⟩))]])
    (by decide)

/-! ## Semantic addition, for comparing sums by value -/

/-- Addition on the semantic view of JS numbers. -/
def semAdd : SemNum → SemNum → SemNum
  | .nan, _ => .nan
  | _, .nan => .nan
  | .inf p, .inf q => if p = q then .inf p else .nan
  | .inf p, .fin _ => .inf p
  | .fin _, .inf p => .inf p
  | .fin a, .fin b => .fin (a + b)

theorem DecQ.add_toQ (a b : DecQ) : (a.add b).toQ = a.toQ + b.toQ := by
  unfold DecQ.add DecQ.toQ
  have h10 : (10 : ℚ) ≠ 0 := by norm_num
  dsimp only
  push_cast
  rw [add_div]
  congr 1
  · have hp : (10 : ℚ) ^ max a.e b.e = 10 ^ (max a.e b.e - a.e) * 10 ^ a.e := by
      rw [← pow_add]
      congr 1
      omega
    rw [hp, mul_comm ((a.m : ℚ)) _, mul_div_mul_left _ _ (pow_ne_zero _ h10)]
  · have hp : (10 : ℚ) ^ max a.e b.e = 10 ^ (max a.e b.e - b.e) * 10 ^ b.e := by
      rw [← pow_add]
      congr 1
      omega
    rw [hp, mul_comm ((b.m : ℚ)) _, mul_div_mul_left _ _ (pow_ne_zero _ h10)]

theorem jnumAdd_sem (a b : JNum) : (jnumAdd a b).sem = semAdd a.sem b.sem := by
  cases a <;> cases b <;> simp [jnumAdd, semAdd, JNum.sem, DecQ.add_toQ]
  case inf.inf p q => split_ifs <;> simp [JNum.sem]

/-- The value added by the part_004 audit total for one claim
(`parseFloat(c.estimatedValue) || 0`) has the same semantic value as the
claim's `estimatedValue`, as long as that is not NaN. -/
theorem p4_step_sem (e : JNum) (h : e.isNaN = false) :
    (if (jsParseFloat (.vNum e)).truthy = true then jsParseFloat (.vNum e)
     else JNum.fin ⟨0, 0⟩).sem = e.sem := by
  cases e with
  | nan => simp [JNum.isNaN] at h
  | inf p => simp [jsParseFloat, JNum.truthy]
  | fin d =>
    show (if (JNum.fin d).truthy = true then JNum.fin d else JNum.fin ⟨0, 0⟩).sem = _
    by_cases hm : d.m = 0
    · simp [JNum.truthy, hm, JNum.sem, DecQ.toQ]
    · simp [JNum.truthy, hm]

/-- Membership in the part_004 validator's output comes from some input
candidate. -/
theorem validateClaims_p4_mem {v : JSVal} {c : Claim_p4} (h : c ∈ validateClaims_p4 v) :
    ∃ x, p4Emit x = some c := by
  cases v with
  | vArr xs =>
    simp only [validateClaims_p4, List.mem_filterMap] at h
    obtain ⟨a, _, ha⟩ := h
    exact ⟨a, ha⟩
  | vUndefined => simp [validateClaims_p4] at h
  | vNull => simp [validateClaims_p4] at h
  | vBool b => simp [validateClaims_p4] at h
  | vNum n => simp [validateClaims_p4] at h
  | vStr s => simp [validateClaims_p4] at h
  | vObj fs => simp [validateClaims_p4] at h

/-- A claim emitted by the part_004 validator never carries a NaN
estimated value (it is the rounding of a value that passed the NaN
check). -/
theorem p4Emit_est_not_nan {x : JSVal} {c : Claim_p4} (h : p4Emit x = some c) :
    c.estimatedValue.isNaN = false := by
  unfold p4Emit at h
  split at h
  all_goals try exact Option.noConfusion h
  all_goals dsimp only at h
  all_goals split_ifs at h with h1 h2 h3
  all_goals split at h
  all_goals try exact Option.noConfusion h
  all_goals split_ifs at h
  all_goals injection h with h
  all_goals subst h
  all_goals simp only [Bool.or_eq_true, not_or, Bool.not_eq_true] at h2
  all_goals rw [show (Claim_p4.estimatedValue _) = (jsParseFloat _).toFixed2 from rfl,
    JNum.toFixed2_isNaN]
  all_goals exact h2.1

/-- Folding the audit-total step and folding plain semantic addition of
`estimatedValue` agree, given NaN-free estimated values. -/
theorem p4_foldl_sem (l : List Claim_p4) (hl : ∀ c ∈ l, c.estimatedValue.isNaN = false) :
    ∀ (a1 a2 : JNum), a1.sem = a2.sem →
      (l.foldl (fun sum c =>
        jnumAdd sum (if (jsParseFloat (.vNum c.estimatedValue)).truthy = true
          then jsParseFloat (.vNum c.estimatedValue) else JNum.fin ⟨0, 0⟩)) a1).sem =
      (l.foldl (fun sum c => jnumAdd sum c.estimatedValue) a2).sem := by
  induction l with
  | nil => intro a1 a2 ha; simpa using ha
  | cons c t ih =>
    intro a1 a2 ha
    simp only [List.foldl_cons]
    apply ih (fun d hd => hl d (List.mem_cons_of_mem c hd))
    rw [jnumAdd_sem, jnumAdd_sem, ha, p4_step_sem c.estimatedValue (hl c (List.mem_cons_self c t))]

/-! ## Claim C7 -/

/-- C7: the `/api/audit` total of part_004,
`claims.reduce((sum, c) => sum + (parseFloat(c.estimatedValue) || 0), 0)`,
computed over the claims returned by `validateClaims`, has exactly the
value of the plain arithmetic sum of those claims' `estimatedValue`
fields — no re-rounding or other adjustment happens after summation. -/
theorem claim_C7_total_is_sum (v : JSVal) :
    (totalEstimatedValue_p4 (validateClaims_p4 v)).sem =
      (sumEstimated (validateClaims_p4 v)).sem := by
  unfold totalEstimatedValue_p4 sumEstimated
  exact p4_foldl_sem (validateClaims_p4 v)
    (fun c hc => p4Emit_est_not_nan (validateClaims_p4_mem hc).choose_spec)
    (.fin ⟨0, 0⟩) (.fin ⟨0, 0⟩) rfl

/-! ## Claim C4 -/

/-- C4 (amended): the candidate
{sku:"B-9", claimReason:"Lost", quantity:"3", estimatedValue:"12.345"}
(quantity and estimatedValue as strings) yields exactly one Claim with
the strings coerced to numbers, estimatedValue rounded to 12.35 — but the
absent transaction id becomes `null` (the part_004 validator's
`claim.amazonTransactionId ? ... : null`), not the string "N/A". -/
theorem claim_C4_scenario :
    validateClaims_p4 (.vArr [.vObj [("sku", .vStr "B-9"), ("claimReason", .vStr "Lost"),
        ("quantity", .vStr "3"), ("estimatedValue", .vStr "12.345")]]) =
      [{ sku := "B-9", claimReason := "Lost", quantity := 3,
         estimatedValue := .fin ⟨1235, 2⟩, amazonTransactionId := none }] := by decide

/-- C4 counterexample: the emitted Claim does not carry
amazonTransactionId = "N/A"; the field is null. -/
theorem claim_C4_counterexample :
    validateClaims_p4 (.vArr [.vObj [("sku", .vStr "B-9"), ("claimReason", .vStr "Lost"),
        ("quantity", .vStr "3"), ("estimatedValue", .vStr "12.345")]]) ≠
      [{ sku := "B-9", claimReason := "Lost", quantity := 3,
         estimatedValue := .fin ⟨1235, 2⟩, amazonTransactionId := some "N/A" }] := by decide

/-! ## Structure of the src/utils validator's output -/

/-- Is this value an array? (`Array.isArray`.) -/
def isArrayVal : JSVal → Bool
  | .vArr _ => true
  | _ => false

/-- `?.trim()` succeeds exactly on strings and nullish values. -/
theorem optTrim_stringish {x : JSVal} (h : stringish x = true) : ∃ y, optTrim x = some y := by
  cases x <;> simp [stringish] at h ⊢ <;> simp [optTrim]

/-- Every claim the src/utils validator emits is labelled either
"Lost Inventory" or "Damaged Inventory": the "Unexplained Adjustment
Loss" branch requires `qty < 0`, but any `qty < 0` row is already taken
by one of the two disposition branches, so it is unreachable. -/
theorem uvRow_label {row : JSVal} {c : ClaimUV} (h : uvRow row = some (some c)) :
    c.claimReason = "Lost Inventory" ∨ c.claimReason = "Damaged Inventory" := by
  unfold uvRow at h
  dsimp only at h
  all_goals
    repeat first
      | exact Option.noConfusion h
      | exact Option.noConfusion (Option.some.inj h)
      | split at h
      | dsimp only at h
  all_goals injection h with h
  all_goals injection h with h
  all_goals subst h
  all_goals try split_ifs at *
  all_goals simp_all

/-- When a row that emits a claim carries a string `disposition`, the
emitted label is decided solely by whether the trimmed disposition equals
"SELLABLE". -/
theorem uvRow_label_of_disposition {row : JSVal} {c : ClaimUV} {d : String}
    (h : uvRow row = some (some c)) (hd : getField row "disposition" = .vStr d) :
    c.claimReason = (if jsTrim d = "SELLABLE" then "Lost Inventory" else "Damaged Inventory") := by
  unfold uvRow at h
  dsimp only at h
  rw [hd] at h
  simp only [show optTrim (JSVal.vStr d) = some (some (jsTrim d)) from rfl] at h
  all_goals
    repeat first
      | exact Option.noConfusion h
      | exact Option.noConfusion (Option.some.inj h)
      | split at h
      | dsimp only at h
  all_goals injection h with h
  all_goals injection h with h
  all_goals subst h
  all_goals try split_ifs at *
  all_goals simp_all

/-- Membership in a successful src/utils validation comes from some row
that emitted the claim. -/
theorem uvGo_mem : ∀ {xs : List JSVal} {cs : List ClaimUV}, uvGo xs = some cs →
    ∀ c ∈ cs, ∃ r, uvRow r = some (some c)
  | [], cs, h, c, hc => by
    injection h with h
    subst h
    exact absurd hc (List.not_mem_nil c)
  | r :: rest, cs, h, c, hc => by
    unfold uvGo at h
    split at h
    · exact Option.noConfusion h
    case _ heq => exact uvGo_mem h c hc
    case _ c' heq =>
      split at h
      · exact Option.noConfusion h
      case _ cs' heq2 =>
        injection h with h
        subst h
        rcases List.mem_cons.mp hc with rfl | hmem
        · exact ⟨r, heq⟩
        · exact uvGo_mem heq2 c hmem

/-- Claims returned by `validateClaims_uv` come from `uvRow`. -/
theorem validateClaims_uv_mem {v : JSVal} {cs : List ClaimUV} {c : ClaimUV}
    (h : validateClaims_uv v = some cs) (hc : c ∈ cs) : ∃ r, uvRow r = some (some c) := by
  cases v with
  | vArr xs => exact uvGo_mem h c hc
  | vUndefined =>
    injection h with h; subst h; exact absurd hc (List.not_mem_nil c)
  | vNull =>
    injection h with h; subst h; exact absurd hc (List.not_mem_nil c)
  | vBool b =>
    injection h with h; subst h; exact absurd hc (List.not_mem_nil c)
  | vNum n =>
    injection h with h; subst h; exact absurd hc (List.not_mem_nil c)
  | vStr s =>
    injection h with h; subst h; exact absurd hc (List.not_mem_nil c)
  | vObj fs =>
    injection h with h; subst h; exact absurd hc (List.not_mem_nil c)

/-- A row whose optionally-chained fields are strings or nullish is
processed without a TypeError. -/
theorem uvRow_safe_isSome {r : JSVal} (h : uvRowSafe r) : (uvRow r).isSome = true := by
  unfold uvRow
  rcases h with h | ⟨h1, h2, h3, h4⟩
  · simp [h]
  by_cases htr : r.truthy = true
  · obtain ⟨y1, hy1⟩ := optTrim_stringish h1
    obtain ⟨y2, hy2⟩ := optTrim_stringish h2
    obtain ⟨y3, hy3⟩ := optTrim_stringish h3
    obtain ⟨y4, hy4⟩ := optTrim_stringish h4
    rw [htr]
    simp only [Bool.not_true, Bool.false_eq_true, if_false, hy1, hy2, hy3, hy4]
    split_ifs <;> simp
  · simp only [Bool.not_eq_true] at htr
    simp [htr]

/-- The whole loop succeeds on a list of safe rows. -/
theorem uvGo_safe : ∀ (xs : List JSVal), (∀ r ∈ xs, uvRowSafe r) → (uvGo xs).isSome = true
  | [], _ => rfl
  | r :: rest, h => by
    unfold uvGo
    have hr := uvRow_safe_isSome (h r (List.mem_cons_self r rest))
    have hrest := uvGo_safe rest (fun x hx => h x (List.mem_cons_of_mem r hx))
    split
    case _ heq => rw [heq] at hr; exact Bool.noConfusion hr
    case _ heq => exact hrest
    case _ c heq =>
      split
      case _ heq2 => rw [heq2] at hrest; exact Bool.noConfusion hrest
      case _ cs heq2 => rfl

/-! ## Claim C5 -/

/-- C5 (amended): the src/utils `validateClaims` returns `[]` for every
non-array input; and for an array it returns a list without raising
provided every element is falsy or carries only strings (or nothing) in
its `sku`, `transaction-type`, `disposition` and `reason` fields.  For an
element with a non-string, non-nullish value in one of those fields, the
optional chain `row.sku?.trim()` (etc.) throws a TypeError, so the
validator is not total on arbitrary arrays. -/
theorem claim_C5_total_on_safe_rows :
    (∀ v : JSVal, isArrayVal v = false → validateClaims_uv v = some []) ∧
    (∀ xs : List JSVal, (∀ r ∈ xs, uvRowSafe r) →
      (validateClaims_uv (.vArr xs)).isSome = true) := by
  constructor
  · intro v hv
    cases v <;> first
      | rfl
      | simp [isArrayVal] at hv
  · intro xs h
    exact uvGo_safe xs h

/-- C5 counterexample: an array whose element has a numeric `sku` makes
`row.sku?.trim()` throw a TypeError — the call does not return a list. -/
theorem claim_C5_counterexample :
    validateClaims_uv (.vArr [.vObj [("sku", .vNum (.fin ⟨5, 0⟩))]]) = none := by decide

/-- C5 witness: the amended totality statement at a non-array input and at
a concrete safe array. -/
theorem claim_C5_witness :
    validateClaims_uv (.vNum (.fin ⟨7, 0⟩)) = some [] ∧
    (validateClaims_uv (.vArr [.vObj [("sku", .vStr "X-1"), ("quantity", .vStr "-2"),
      ("unit-cost", .vStr "4"), ("disposition", .vStr "SELLABLE")]])).isSome = true :=
  ⟨claim_C5_total_on_safe_rows.1 (.vNum (.fin ⟨7, 0⟩)) (by decide),
   claim_C5_total_on_safe_rows.2 [.vObj [("sku", .vStr "X-1"), ("quantity", .vStr "-2"),
      ("unit-cost", .vStr "4"), ("disposition", .vStr "SELLABLE")]] (by decide)⟩

/-! ## Claim C8 -/

/-- C8 (amended): the disposition-based classifier assigns exactly one of
TWO labels: a negative-quantity row with disposition `SELLABLE` is
"Lost Inventory" and any other disposition (string) gives
"Damaged Inventory"; the third label "Unexplained Adjustment Loss" is
unreachable — every claim the validator ever emits carries one of the two
disposition-based labels. -/
theorem claim_C8_two_labels :
    (∀ (v : JSVal) (cs : List ClaimUV) (c : ClaimUV), validateClaims_uv v = some cs → c ∈ cs →
      c.claimReason = "Lost Inventory" ∨ c.claimReason = "Damaged Inventory") ∧
    (∀ (row : JSVal) (c : ClaimUV) (d : String), uvRow row = some (some c) →
      getField row "disposition" = .vStr d →
      c.claimReason = (if jsTrim d = "SELLABLE" then "Lost Inventory" else "Damaged Inventory")) := by
  constructor
  · intro v cs c hv hc
    obtain ⟨r, hr⟩ := validateClaims_uv_mem hv hc
    exact uvRow_label hr
  · intro row c d h hd
    exact uvRow_label_of_disposition h hd

/-- C8 counterexample: no input whatsoever makes the classifier assign
"Unexplained Adjustment Loss" — the third branch of the priority chain is
dead code, refuting the claim's "for some input, the label is assigned". -/
theorem claim_C8_counterexample :
    ¬ ∃ (v : JSVal) (cs : List ClaimUV) (c : ClaimUV),
      validateClaims_uv v = some cs ∧ c ∈ cs ∧
        c.claimReason = "Unexplained Adjustment Loss" := by
  rintro ⟨v, cs, c, h1, h2, h3⟩
  obtain ⟨r, hr⟩ := validateClaims_uv_mem h1 h2
  rcases uvRow_label hr with h | h <;> rw [h] at h3 <;> exact absurd h3 (by decide)

/-- C8 witness: the two-label invariant applied to a concrete SELLABLE
row and the claim it emits. -/
theorem claim_C8_witness :
    ({ sku := "X-1", claimReason := "Lost Inventory", quantity := .fin ⟨2, 0⟩,
       estimatedValue := .fin ⟨8, 0⟩, amazonTransactionId := .vStr "N/A" } : ClaimUV).claimReason
        = "Lost Inventory" ∨
    ({ sku := "X-1", claimReason := "Lost Inventory", quantity := .fin ⟨2, 0⟩,
       estimatedValue := .fin ⟨8, 0⟩, amazonTransactionId := .vStr "N/A" } : ClaimUV).claimReason
        = "Damaged Inventory" :=
  claim_C8_two_labels.1
    (.vArr [.vObj [("sku", .vStr "X-1"), ("quantity", .vStr "-2"),
      ("unit-cost", .vStr "4"), ("disposition", .vStr "SELLABLE")]])
    [{ sku := "X-1", claimReason := "Lost Inventory", quantity := .fin ⟨2, 0⟩,
       estimatedValue := .fin ⟨8, 0⟩, amazonTransactionId := .vStr "N/A" }]
    { sku := "X-1", claimReason := "Lost Inventory", quantity := .fin ⟨2, 0⟩,
      estimatedValue := .fin ⟨8, 0⟩, amazonTransactionId := .vStr "N/A" }
    (by decide) (by decide)

/-! ## Structure of the two preprocessors' outputs -/

/-- A row the part_001 loop pushes satisfies the eligibility disjunction:
negative parsed quantity, or a keyword hit in the lower-cased reason. -/
theorem p1Row_eligible {iS iQ iR iRef : ℤ} {l : List Char} {r : RowP1}
    (h : p1Row iS iQ iR iRef l = some r) :
    r.quantity.ltZero = true ∨ p1KeywordHit (r.reason.data.map Char.toLower) = true := by
  unfold p1Row at h
  dsimp only at h
  split_ifs at h <;>
    (injection h with h; subst h; simp_all)

/-- Membership in the part_001 row loop comes from some line accepted by
`p1Row` (the 400-row cap only truncates). -/
theorem p1Go_mem (iS iQ iR iRef : ℤ) :
    ∀ (lines : List (List Char)) (count : ℕ) (r : RowP1),
      r ∈ p1Go iS iQ iR iRef lines count → ∃ l, p1Row iS iQ iR iRef l = some r
  | [], _, r, h => absurd h (List.not_mem_nil r)
  | l :: rest, count, r, h => by
    unfold p1Go at h
    split at h
    case _ => exact p1Go_mem iS iQ iR iRef rest count r h
    case _ r' heq =>
      split_ifs at h
      · rcases List.mem_singleton.mp h with rfl
        exact ⟨l, heq⟩
      · rcases List.mem_cons.mp h with rfl | hmem
        · exact ⟨l, heq⟩
        · exact p1Go_mem iS iQ iR iRef rest (count + 1) r hmem

/-- Every candidate of the part_001 preprocessor comes from an accepted
line (for some resolved column indices). -/
theorem preprocessCSV_p1_mem {s : String} {r : RowP1} (h : r ∈ preprocessCSV_p1 s) :
    ∃ (iS iQ iR iRef : ℤ) (l : List Char), p1Row iS iQ iR iRef l = some r := by
  unfold preprocessCSV_p1 at h
  dsimp only at h
  split_ifs at h with h1 h2
  · exact absurd h (List.not_mem_nil r)
  · exact absurd h (List.not_mem_nil r)
  · obtain ⟨l, hl⟩ := p1Go_mem _ _ _ _ _ _ r h
    exact ⟨_, _, _, _, l, hl⟩

/-- The src/utils preprocessor's quantity is an absolute value. -/
theorem rowU_quantity_nonneg (hs : List String) (l : List Char) : 0 ≤ (rowU hs l).quantity := by
  unfold rowU
  exact abs_nonneg _

/-- Every row of the src/utils preprocessor comes from `rowU` on a data
line. -/
theorem preprocessCSV_u_mem {s : String} {r : RowU} (h : r ∈ preprocessCSV_u s) :
    ∃ (hs : List String) (l : List Char), r = rowU hs l := by
  unfold preprocessCSV_u at h
  split_ifs at h with h1
  · exact absurd h (List.not_mem_nil r)
  · obtain ⟨l, _, hl⟩ := List.mem_map.mp h
    exact ⟨_, l, hl.symm⟩

/-! ## Claim C3 -/

/-- C3 (amended): neither variant enforces "quantity > 0".  The part_001
classifier emits exactly the rows satisfying its heuristic — negative
parsed quantity (kept signed, hence ≤ 0 in the output) OR a keyword match
in the reason (so zero-quantity rows with a matching keyword are
included).  The src/utils variant emits every row with the absolute value
of the parsed quantity, which is ≥ 0 but can be 0. -/
theorem claim_C3_eligibility :
    (∀ (s : String) (r : RowP1), r ∈ preprocessCSV_p1 s →
      r.quantity.ltZero = true ∨ p1KeywordHit (r.reason.data.map Char.toLower) = true) ∧
    (∀ (s : String) (r : RowU), r ∈ preprocessCSV_u s → 0 ≤ r.quantity) := by
  constructor
  · intro s r h
    obtain ⟨iS, iQ, iR, iRef, l, hl⟩ := preprocessCSV_p1_mem h
    exact p1Row_eligible hl
  · intro s r h
    obtain ⟨hs, l, rfl⟩ := preprocessCSV_u_mem h
    exact rowU_quantity_nonneg hs l

/-- C3 counterexample: on the spec's own scenario input, part_001 emits a
candidate with quantity -3 (< 0) and one with quantity 0 (keyword "lost"),
refuting "never emits a candidate with quantity <= 0". -/
theorem claim_C3_counterexample :
    ((preprocessCSV_p1 "sku,quantity,reason\nA-1,-3,Warehouse damaged\nA-2,0,Lost\nA-3,5,Found").map
        RowP1.quantity) = [.fin ⟨-3, 0⟩, .fin ⟨0, 0⟩, .fin ⟨5, 0⟩] ∧
    (JNum.fin ⟨-3, 0⟩).leZero = true ∧ (JNum.fin ⟨0, 0⟩).leZero = true := by decide

/-- C3 witness: the eligibility disjunction at the concrete negative-
quantity candidate, plus the src/utils non-negativity at its first row. -/
theorem claim_C3_witness :
    ((JNum.fin ⟨-3, 0⟩ : JNum).ltZero = true ∨
      p1KeywordHit (("Warehouse damaged" : String).data.map Char.toLower) = true) ∧
    0 ≤ ({ sku := "A-1", reason := "Warehouse damaged", quantity := 3,
           estimatedValue := ⟨2550, 2⟩, amazonTransactionId := "N/A" } : RowU).quantity :=
  ⟨claim_C3_eligibility.1 "sku,quantity,reason\nA-1,-3,Warehouse damaged"
      { sku := "A-1", quantity := .fin ⟨-3, 0⟩, reason := "Warehouse damaged",
        referenceId := "", rawReason := "Warehouse damaged" } (by decide),
   claim_C3_eligibility.2 "sku,quantity,reason\nA-1,-3,Warehouse damaged"
      { sku := "A-1", reason := "Warehouse damaged", quantity := 3,
        estimatedValue := ⟨2550, 2⟩, amazonTransactionId := "N/A" } (by decide)⟩

/-! ## Claim C2 -/

/-- C2 (amended): on the scenario input, the src/utils `preprocessCSV`
performs no eligibility filtering and emits all three data rows.  The
first matches the spec's expected candidate
{sku:"A-1", quantity:3, reason:"Warehouse damaged", estimatedValue:25.50}
(plus amazonTransactionId "N/A"); but A-2 is also emitted (quantity 0,
estimatedValue 0) and A-3 is also emitted (quantity 5, estimatedValue
42.50) — neither exclusion in the claim happens. -/
theorem claim_C2_scenario :
    preprocessCSV_u "sku,quantity,reason\nA-1,-3,Warehouse damaged\nA-2,0,Lost\nA-3,5,Found" =
      [{ sku := "A-1", reason := "Warehouse damaged", quantity := 3,
         estimatedValue := ⟨2550, 2⟩, amazonTransactionId := "N/A" },
       { sku := "A-2", reason := "Lost", quantity := 0,
         estimatedValue := ⟨0, 2⟩, amazonTransactionId := "N/A" },
       { sku := "A-3", reason := "Found", quantity := 5,
         estimatedValue := ⟨4250, 2⟩, amazonTransactionId := "N/A" }] := by decide

/-- C2 counterexample: neither cited preprocessCSV variant produces
exactly one candidate on the scenario input — both emit three. -/
theorem claim_C2_counterexample :
    (preprocessCSV_u
        "sku,quantity,reason\nA-1,-3,Warehouse damaged\nA-2,0,Lost\nA-3,5,Found").length ≠ 1 ∧
    (preprocessCSV_p1
        "sku,quantity,reason\nA-1,-3,Warehouse damaged\nA-2,0,Lost\nA-3,5,Found").length ≠ 1 := by
  decide

/-! ## Claim C9 -/

/-- A hit of an `a || b || ...` string chain is never the empty string. -/
theorem firstTruthyStr_ne_empty :
    ∀ {l : List (Option String)} {s : String}, firstTruthyStr l = some s → s ≠ ""
  | [], _, h => Option.noConfusion h
  | some t :: rest, s, h => by
    unfold firstTruthyStr at h
    split_ifs at h with ht
    · exact firstTruthyStr_ne_empty h
    · injection h with h
      subst h
      exact ht
  | none :: rest, s, h => firstTruthyStr_ne_empty (by simpa [firstTruthyStr] using h)

/-- C9: in the src/utils `preprocessCSV`, no filtering happens — exactly
one row is emitted per data line; every emitted row has
`estimatedValue = quantity * 8.5` rounded to 2 digits and a non-empty
`amazonTransactionId`; the emitted quantity is exactly the absolute value
of the integer parsed from the quantity-alias chain, with a missing or
unparseable quantity defaulting to 1 (not 0); and the transaction id is
exactly the first non-empty source id, defaulting to the string "N/A"
when no source id is present. -/
theorem claim_C9_parseCSV_invariants :
    (∀ s : String, s ≠ "" →
      (preprocessCSV_u s).length = (splitChar '\n' (jsTrimL s.data)).length - 1) ∧
    (∀ (s : String) (r : RowU), r ∈ preprocessCSV_u s →
      0 ≤ r.quantity ∧
      r.estimatedValue = DecQ.round2 (DecQ.mul ⟨r.quantity, 0⟩ ⟨85, 1⟩) ∧
      r.amazonTransactionId ≠ "") ∧
    (∀ (hs : List String) (l : List Char) (str : String) (z : ℤ),
      qtyRawU hs (valuesU l) = some str → parseIntL str.data = some z →
      (rowU hs l).quantity = |z|) ∧
    (∀ (hs : List String) (l : List Char),
      (qtyRawU hs (valuesU l)).bind (fun s => parseIntL s.data) = none →
      (rowU hs l).quantity = 1) ∧
    (∀ (hs : List String) (l : List Char),
      txRawU hs (valuesU l) = none → (rowU hs l).amazonTransactionId = "N/A") ∧
    (∀ (hs : List String) (l : List Char) (t : String),
      txRawU hs (valuesU l) = some t → (rowU hs l).amazonTransactionId = t) := by
  refine ⟨?_, ?_, ?_, ?_, ?_, ?_⟩
  · intro s hs
    unfold preprocessCSV_u
    rw [if_neg hs]
    simp
  · intro s r h
    obtain ⟨hs, l, rfl⟩ := preprocessCSV_u_mem h
    refine ⟨rowU_quantity_nonneg hs l, rfl, ?_⟩
    show (if _ = "" then "N/A" else _) ≠ ""
    split_ifs with ht
    · decide
    · exact ht
  · intro hs l str z hq hz
    unfold rowU
    dsimp only
    rw [hq]
    dsimp only
    rw [hz]
    rfl
  · intro hs l h
    unfold rowU
    dsimp only
    cases hq : qtyRawU hs (valuesU l) with
    | none => rfl
    | some s =>
      rw [hq] at h
      have h2 : parseIntL s.data = none := h
      dsimp only
      rw [h2]
      rfl
  · intro hs l h
    unfold rowU
    dsimp only
    rw [h]
    rfl
  · intro hs l t h
    unfold rowU
    dsimp only
    rw [h]
    show (if t = "" then "N/A" else t) = t
    rw [if_neg (firstTruthyStr_ne_empty h)]

/-- C9 witness: the invariants applied to concrete inputs — the scenario
input and its first row, a parseable negative quantity giving its
absolute value, an unparseable quantity giving 1, a row without any
source id giving "N/A", and a row with a reference id passing it
through. -/
theorem claim_C9_witness :
    ("sku,quantity,reason\nA-1,-3,Warehouse damaged" ≠ "" ∧
      (preprocessCSV_u "sku,quantity,reason\nA-1,-3,Warehouse damaged").length =
        (splitChar '\n'
          (jsTrimL ("sku,quantity,reason\nA-1,-3,Warehouse damaged" : String).data)).length - 1) ∧
    (0 ≤ (3 : ℤ) ∧ (⟨2550, 2⟩ : DecQ) = DecQ.round2 (DecQ.mul ⟨3, 0⟩ ⟨85, 1⟩) ∧
      ("N/A" : String) ≠ "") ∧
    (rowU ["sku", "quantity"] ("A-1,-3" : String).data).quantity = |(-3 : ℤ)| ∧
    (rowU ["sku", "quantity"] ("A-9,unknown" : String).data).quantity = 1 ∧
    (rowU ["sku", "quantity"] ("A-1,-3" : String).data).amazonTransactionId = "N/A" ∧
    (rowU ["sku", "reference-id"] ("A-1,T123" : String).data).amazonTransactionId = "T123" :=
  ⟨⟨by decide, claim_C9_parseCSV_invariants.1 "sku,quantity,reason\nA-1,-3,Warehouse damaged"
      (by decide)⟩,
   claim_C9_parseCSV_invariants.2.1 "sku,quantity,reason\nA-1,-3,Warehouse damaged"
      { sku := "A-1", reason := "Warehouse damaged", quantity := 3,
        estimatedValue := ⟨2550, 2⟩, amazonTransactionId := "N/A" } (by decide),
   claim_C9_parseCSV_invariants.2.2.1 ["sku", "quantity"] ("A-1,-3" : String).data "-3" (-3)
      (by decide) (by decide),
   claim_C9_parseCSV_invariants.2.2.2.1 ["sku", "quantity"] ("A-9,unknown" : String).data
      (by decide),
   claim_C9_parseCSV_invariants.2.2.2.2.1 ["sku", "quantity"] ("A-1,-3" : String).data
      (by decide),
   claim_C9_parseCSV_invariants.2.2.2.2.2 ["sku", "reference-id"] ("A-1,T123" : String).data
      "T123" (by decide)⟩

/-! ## Claim C10 -/

/-- C10: `safeCell` is total — for any cell list, a negative index (in
particular the -1 of an unresolved header) or an index at or beyond the
number of cells yields the empty string, never an out-of-bounds access,
so the part_001 preprocessor cannot fail on ragged rows. -/
theorem claim_C10_safeCell_total (cells : List String) (idx : ℤ)
    (h : idx < 0 ∨ (cells.length : ℤ) ≤ idx) : safeCell cells idx = "" := by
  unfold safeCell
  rw [if_pos h]

/-- C10 witness: the unresolved-header index -1 and an out-of-range index
on a concrete ragged row both give the empty string. -/
theorem claim_C10_witness :
    safeCell ["A-1", "3"] (-1) = "" ∧ safeCell ["A-1", "3"] 7 = "" :=
  ⟨claim_C10_safeCell_total ["A-1", "3"] (-1) (by decide),
   claim_C10_safeCell_total ["A-1", "3"] 7 (by decide)⟩
